import Mathlib

/-!
Shallow embedding of the command handlers of `src/neuropoet-tgbot/src/commands.py`.

The handlers are `async` Python functions that talk to two external service
clients (emotion analysis, poetry generation) and a history database, all
reached through the global state.  We embed each handler as a pure function:

* the external collaborators become function arguments
  (`emoApi : String → Option Emotions`, `poApi : Emotions → Option String`,
  `getHistory : Nat → Nat → History`), where `none` models a falsy/failed
  response;
* every service call and every history write is recorded in an `Event` trace
  returned alongside the reply, so that claims about "the poetry client is
  never invoked" or "exactly one record is written" become statements about
  the trace;
* Python string splitting (`str.split(maxsplit=1)` and `str.split()`) is
  embedded faithfully, including the treatment of whitespace runs;
* emotion scores (Python floats) are modelled as rationals; an emotions
  mapping is an association list in iteration (insertion) order, matching
  CPython's ordered `dict`;
* the `except Exception` handler at each command boundary becomes an explicit
  error reply on the paths where the embedded code can fail
  (tuple unpacking of an empty split, `max` over an empty mapping).
-/

namespace NeuroPoet

/-- Emotion scores keyed by label, in the mapping's iteration order. -/
abbrev Emotions := List (String × ℚ)

/-- One retrieved emotion-analysis record (`EmotionRecord`). -/
structure EmotionRecord where
  emotions : Emotions
  performed_at : String
deriving DecidableEq, Repr

/-- One retrieved generation record (`GenerationRecord`). -/
structure GenerationRecord where
  request_text : String
  response_text : String
  performed_at : String
deriving DecidableEq, Repr

/-- Result of `database.get_user_history`: the two independent record lists. -/
structure History where
  emotions : List EmotionRecord
  generations : List GenerationRecord
deriving DecidableEq, Repr

/-- Observable side effects of a handler run, in program order. -/
inductive Event where
  | callEmotion (user_id : Nat) (message : String)
  | callPoetry (user_id : Nat) (emotions : Emotions)
  | logEmotion (user_id : Nat) (emotions : Emotions)
  | logGeneration (user_id : Nat) (request_text : String) (response_text : String)
  | queryHistory (user_id : Nat) (limit : Nat)
deriving DecidableEq, Repr

/-- `true` exactly on the poetry-service invocation event. -/
def Event.isCallPoetry : Event → Bool
  | .callPoetry _ _ => true
  | _ => false

/-- `true` exactly on the `log_emotion_analysis` write event. -/
def Event.isLogEmotion : Event → Bool
  | .logEmotion _ _ => true
  | _ => false

/-- `true` exactly on the `log_generation` write event. -/
def Event.isLogGeneration : Event → Bool
  | .logGeneration _ _ _ => true
  | _ => false

/-- `true` on any history-store write (either record kind). -/
def Event.isHistoryWrite : Event → Bool
  | .logEmotion _ _ => true
  | .logGeneration _ _ _ => true
  | _ => false

/-- `true` on any service-client invocation (emotion or poetry). -/
def Event.isServiceCall : Event → Bool
  | .callEmotion _ _ => true
  | .callPoetry _ _ => true
  | _ => false

/-- The user-visible outcome of a handler, one constructor per reply shape. -/
inductive Reply where
  | missingArgEmotions
  | emotionsJson (emotions : Emotions)
  | emotionUnavailable
  | emotionsError
  | missingArgGenerate
  | poemReply (poem : String)
  | poetryUnavailable
  | generateError
  | emptyHistory
  | historyListing (tops : List (String × ℚ)) (gens : List (String × String))
  | historyError
deriving DecidableEq, Repr

/-- Python `str.split` whitespace (`' '`, `'\t'`, `'\n'`, `'\r'`, `'\x0b'`, `'\x0c'`). -/
def pySpace (c : Char) : Bool :=
  c = ' ' || c = '\t' || c = '\n' || c = '\r' || c = '\x0b' || c = '\x0c'

/-- Python `s.split(maxsplit=1)`: skip leading whitespace, take the first
whitespace-delimited token, skip the following whitespace run; the remainder
of the string (verbatim, trailing whitespace kept) is the second element
unless it is empty. -/
def pySplit1 (s : String) : List String :=
  match s.data.dropWhile pySpace with
  | [] => []
  | c :: cs =>
    let tok : List Char := c :: cs.takeWhile (fun x => !(pySpace x))
    let rest : List Char := (cs.dropWhile (fun x => !(pySpace x))).dropWhile pySpace
    match rest with
    | [] => [⟨tok⟩]
    | r :: rs => [⟨tok⟩, ⟨r :: rs⟩]

/-- Fuel-indexed worker for Python `s.split()` (split on whitespace runs). -/
def pySplitAllGo : Nat → List Char → List String
  | 0, _ => []
  | fuel + 1, l =>
    match l.dropWhile pySpace with
    | [] => []
    | c :: cs =>
      (⟨c :: cs.takeWhile (fun x => !(pySpace x))⟩ : String) ::
        pySplitAllGo fuel (cs.dropWhile (fun x => !(pySpace x)))

/-- Python `s.split()` with no arguments: whitespace-run separated tokens,
no empty fields. -/
def pySplitAll (s : String) : List String :=
  pySplitAllGo (s.data.length + 1) s.data

/-- Python `str.isdigit` restricted to ASCII: nonempty and all digits. -/
def isDigitString (a : String) : Bool :=
  !a.data.isEmpty && a.data.all Char.isDigit

/-- Python `int(...)` on a digit string. -/
def strToNat (a : String) : Nat :=
  a.data.foldl (fun n c => 10 * n + (c.toNat - 48)) 0

/-- Lines 166-169 of `cmd_history`: `limit = 5`, overwritten with
`min(int(args[0]), 20)` when there is a first argument made of digits. -/
def parseLimit (args : List String) : Nat :=
  match args with
  | [] => 5
  | a :: _ => if isDigitString a then min (strToNat a) 20 else 5

/-- Python `max(items, key=lambda x: x[1])` over an association list:
`none` on the empty list (where CPython raises `ValueError`), otherwise the
first entry attaining the maximal score (Python's `max` replaces the current
best only on a strictly greater key). -/
def pyMaxBy (l : List (String × ℚ)) : Option (String × ℚ) :=
  match l with
  | [] => none
  | x :: xs => some (xs.foldl (fun m y => if m.2 < y.2 then y else m) x)

/-- The per-`EmotionRecord` loop of `cmd_history` (lines 183-192): compute
each record's top emotion in order; `none` models the `ValueError` raised by
`max` on the first record whose mapping is empty. -/
def topEmotions : List EmotionRecord → Option (List (String × ℚ))
  | [] => some []
  | r :: rs =>
    match pyMaxBy r.emotions with
    | none => none
    | some p =>
      match topEmotions rs with
      | none => none
      | some ps => some (p :: ps)

/-- Body of `cmd_emotions` after text extraction (lines 67-96). -/
def cmd_emotions_body (text : String) (user_id : Nat)
    (emoApi : String → Option Emotions) : Reply × List Event :=
  if text = "" then (.missingArgEmotions, [])
  else
    match emoApi text with
    | some r => (.emotionsJson r, [.callEmotion user_id text, .logEmotion user_id r])
    | none => (.emotionUnavailable, [.callEmotion user_id text])

/-- The `/emotions` handler (lines 60-100).  The empty-split case models the
`ValueError` of `command, *args = ...` unpacking, caught by the boundary
`except` into the generic error reply. -/
def cmd_emotions (msgText : String) (user_id : Nat)
    (emoApi : String → Option Emotions) : Reply × List Event :=
  match pySplit1 msgText with
  | [] => (.emotionsError, [])
  | _ :: args => cmd_emotions_body (args.headD "") user_id emoApi

/-- Body of `cmd_format` after text extraction (lines 110-153). -/
def cmd_format_body (text : String) (user_id : Nat)
    (emoApi : String → Option Emotions) (poApi : Emotions → Option String) :
    Reply × List Event :=
  if text = "" then (.missingArgGenerate, [])
  else
    match emoApi text with
    | none => (.emotionUnavailable, [.callEmotion user_id text])
    | some emotions =>
      match poApi emotions with
      | none =>
        (.poetryUnavailable,
          [.callEmotion user_id text, .logEmotion user_id emotions,
           .callPoetry user_id emotions])
      | some poem =>
        (.poemReply poem,
          [.callEmotion user_id text, .logEmotion user_id emotions,
           .callPoetry user_id emotions, .logGeneration user_id text poem])

/-- The `/generate` handler `cmd_format` (lines 103-157). -/
def cmd_format (msgText : String) (user_id : Nat)
    (emoApi : String → Option Emotions) (poApi : Emotions → Option String) :
    Reply × List Event :=
  match pySplit1 msgText with
  | [] => (.generateError, [])
  | _ :: args => cmd_format_body (args.headD "") user_id emoApi poApi

/-- Formatting part of `cmd_history` (lines 176-209): empty-history notice,
or the two-section listing; `historyError` models the boundary `except`
catching the `ValueError` from `max` over an empty emotions mapping. -/
def renderHistory (h : History) : Reply :=
  if h.emotions.isEmpty && h.generations.isEmpty then .emptyHistory
  else
    match topEmotions h.emotions with
    | none => .historyError
    | some tops =>
      .historyListing tops (h.generations.map fun g => (g.request_text, g.response_text))

/-- The `/history` handler (lines 160-213): parse the limit from
`message.text.split()[1:]`, query the store at that limit, format. -/
def cmd_history (msgText : String) (user_id : Nat)
    (getHistory : Nat → Nat → History) : Reply × List Event :=
  let args := (pySplitAll msgText).drop 1
  let limit := parseLimit args
  (renderHistory (getHistory user_id limit), [.queryHistory user_id limit])

/-- Per-service health status (`checking`/`success`/`error`, line 220). -/
inductive HealthStatus where
  | checking
  | success
  | error
deriving DecidableEq, Repr

/-- How a single probe settles: a boolean result, an exception, or hitting
the 10-second `asyncio.wait_for` timeout (which raises `TimeoutError`). -/
inductive ProbeOutcome where
  | ok (result : Bool)
  | exn
  | timeout
deriving DecidableEq, Repr

/-- `check_service` (lines 242-256): a truthy result gives `success`, a
falsy one `error`; the `except Exception` clause turns both a raised
exception and the `TimeoutError` from `asyncio.wait_for` into `error`. -/
def check_service : ProbeOutcome → HealthStatus
  | .ok r => if r then .success else .error
  | .exn => .error
  | .timeout => .error

/-- Outcomes of the three probes of one `/health` run. -/
structure HealthRun where
  emotion : ProbeOutcome
  poetry : ProbeOutcome
  database : ProbeOutcome
deriving DecidableEq, Repr

/-- The status map once `asyncio.gather` has joined all three probes. -/
def healthStatuses (r : HealthRun) : HealthStatus × HealthStatus × HealthStatus :=
  (check_service r.emotion, check_service r.poetry, check_service r.database)

/-- The closing reaction (line 269): thumbs-up vs thumbs-down. -/
inductive FinalReaction where
  | thumbsUp
  | thumbsDown
deriving DecidableEq, Repr

/-- The `/health` handler `cmd_health` (lines 216-274), after all probes
settle: the final statuses and the closing reaction chosen by
`all(v == "success" for v in status.values())`. -/
def cmd_health (r : HealthRun) :
    (HealthStatus × HealthStatus × HealthStatus) × FinalReaction :=
  let s := healthStatuses r
  (s,
    if s.1 = .success ∧ s.2.1 = .success ∧ s.2.2 = .success then .thumbsUp
    else .thumbsDown)

/-! Helper lemmas about `takeWhile`/`dropWhile` over appended lists. -/

theorem takeWhile_append_of_all {α : Type} (q : α → Bool) :
    ∀ (l1 l2 : List α), (∀ x ∈ l1, q x = true) →
      (l1 ++ l2).takeWhile q = l1 ++ l2.takeWhile q := by
  intro l1
  induction l1 with
  | nil => intro l2 _; simp
  | cons a t ih =>
    intro l2 h
    have ha : q a = true := h a (List.mem_cons_self a t)
    have ht : ∀ x ∈ t, q x = true := fun x hx => h x (List.mem_cons_of_mem a hx)
    simp only [List.cons_append, List.takeWhile_cons_of_pos ha, ih l2 ht]

theorem dropWhile_append_of_all {α : Type} (q : α → Bool) :
    ∀ (l1 l2 : List α), (∀ x ∈ l1, q x = true) →
      (l1 ++ l2).dropWhile q = l2.dropWhile q := by
  intro l1
  induction l1 with
  | nil => intro l2 _; simp
  | cons a t ih =>
    intro l2 h
    have ha : q a = true := h a (List.mem_cons_self a t)
    have ht : ∀ x ∈ t, q x = true := fun x hx => h x (List.mem_cons_of_mem a hx)
    simp only [List.cons_append, List.dropWhile_cons_of_pos ha, ih l2 ht]

theorem takeWhile_eq_nil_of_all {α : Type} (q : α → Bool) (l : List α)
    (h : ∀ x ∈ l, q x = false) : l.takeWhile q = [] := by
  cases l with
  | nil => rfl
  | cons a t =>
    exact List.takeWhile_cons_of_neg (by simp [h a (List.mem_cons_self a t)])

theorem dropWhile_eq_self_of_all {α : Type} (q : α → Bool) (l : List α)
    (h : ∀ x ∈ l, q x = false) : l.dropWhile q = l := by
  cases l with
  | nil => rfl
  | cons a t =>
    exact List.dropWhile_cons_of_neg (by simp [h a (List.mem_cons_self a t)])

theorem dropWhile_eq_nil_of_all {α : Type} (q : α → Bool) (l : List α)
    (h : ∀ x ∈ l, q x = true) : l.dropWhile q = [] := by
  induction l with
  | nil => rfl
  | cons a t ih =>
    rw [List.dropWhile_cons_of_pos (h a (List.mem_cons_self a t))]
    exact ih fun x hx => h x (List.mem_cons_of_mem a hx)

/-- Splitting a message made of a non-whitespace command token followed by
whitespace only (possibly none) yields just the command. -/
theorem pySplit1_cmd_ws (c w : String) (hc : c.data ≠ [])
    (hcw : ∀ x ∈ c.data, pySpace x = false)
    (hw : ∀ x ∈ w.data, pySpace x = true) :
    pySplit1 (c ++ w) = [c] := by
  obtain ⟨a, t, hct⟩ : ∃ a t, c.data = a :: t := by
    cases hcd : c.data with
    | nil => exact absurd hcd hc
    | cons a t => exact ⟨a, t, rfl⟩
  have ha : pySpace a = false := hcw a (by rw [hct]; exact List.mem_cons_self a t)
  have hct' : ∀ x ∈ t, pySpace x = false := fun x hx =>
    hcw x (by rw [hct]; exact List.mem_cons_of_mem a hx)
  have hdrop : ((c ++ w).data).dropWhile pySpace = a :: (t ++ w.data) := by
    rw [String.data_append, hct, List.cons_append]
    exact List.dropWhile_cons_of_neg (by simp [ha])
  have htake : (t ++ w.data).takeWhile (fun x => !(pySpace x)) = t := by
    rw [takeWhile_append_of_all _ t w.data (fun x hx => by simp [hct' x hx])]
    rw [takeWhile_eq_nil_of_all _ w.data (fun x hx => by simp [hw x hx])]
    simp
  have hrest : ((t ++ w.data).dropWhile (fun x => !(pySpace x))).dropWhile pySpace = [] := by
    rw [dropWhile_append_of_all _ t w.data (fun x hx => by simp [hct' x hx])]
    rw [dropWhile_eq_self_of_all _ w.data (fun x hx => by simp [hw x hx])]
    exact dropWhile_eq_nil_of_all _ w.data hw
  unfold pySplit1
  rw [hdrop]
  simp only [htake, hrest]
  rw [← hct]

/-- Unfolding `cmd_emotions` once the split of the message text is known. -/
theorem cmd_emotions_eq_body (msgText hd : String) (args : List String)
    (user_id : Nat) (emoApi : String → Option Emotions)
    (hs : pySplit1 msgText = hd :: args) :
    cmd_emotions msgText user_id emoApi =
      cmd_emotions_body (args.headD "") user_id emoApi := by
  unfold cmd_emotions
  rw [hs]

/-- Unfolding `cmd_format` once the split of the message text is known. -/
theorem cmd_format_eq_body (msgText hd : String) (args : List String)
    (user_id : Nat) (emoApi : String → Option Emotions)
    (poApi : Emotions → Option String)
    (hs : pySplit1 msgText = hd :: args) :
    cmd_format msgText user_id emoApi poApi =
      cmd_format_body (args.headD "") user_id emoApi poApi := by
  unfold cmd_format
  rw [hs]

/-- C7: for every empty or whitespace-only input text after the command
token, both `cmd_emotions` and `cmd_format` reply with the missing-argument
notice and produce no event at all: no service-client call, no history
write. -/
theorem missing_text_short_circuit (c w : String) (user_id : Nat)
    (emoApi : String → Option Emotions) (poApi : Emotions → Option String)
    (hc : c ≠ "") (hcw : ∀ x ∈ c.data, pySpace x = false)
    (hw : ∀ x ∈ w.data, pySpace x = true) :
    cmd_emotions (c ++ w) user_id emoApi = (.missingArgEmotions, []) ∧
    cmd_format (c ++ w) user_id emoApi poApi = (.missingArgGenerate, []) := by
  have hc' : c.data ≠ [] := by
    intro h
    apply hc
    cases c with
    | mk l =>
      simp only at h
      rw [h]
  have hsplit := pySplit1_cmd_ws c w hc' hcw hw
  constructor
  · rw [cmd_emotions_eq_body _ c [] _ _ hsplit]
    simp [cmd_emotions_body]
  · rw [cmd_format_eq_body _ c [] _ _ _ hsplit]
    simp [cmd_format_body]

/-- Witness for C7 at a concrete message `"/emotions"` + whitespace. -/
theorem missing_text_short_circuit_witness :
    cmd_emotions ("/emotions" ++ "  ") 7 (fun _ => some [("joy", 1)]) =
      (.missingArgEmotions, []) ∧
    cmd_format ("/emotions" ++ "  ") 7 (fun _ => some [("joy", 1)])
        (fun _ => some "poem") =
      (.missingArgGenerate, []) :=
  missing_text_short_circuit "/emotions" "  " 7 _ _
    (by decide) (by decide) (by decide)

/-- C1: when the emotion service fails during `/generate`, the reply is the
emotion-service-unavailable notice, the poetry client is never invoked, and
no history record is written. -/
theorem generate_emotion_failure_aborts (msgText c t : String) (user_id : Nat)
    (emoApi : String → Option Emotions) (poApi : Emotions → Option String)
    (hs : pySplit1 msgText = [c, t]) (ht : t ≠ "") (he : emoApi t = none) :
    (cmd_format msgText user_id emoApi poApi).1 = .emotionUnavailable ∧
    ((cmd_format msgText user_id emoApi poApi).2.countP Event.isCallPoetry) = 0 ∧
    ((cmd_format msgText user_id emoApi poApi).2.countP Event.isHistoryWrite) = 0 := by
  rw [cmd_format_eq_body msgText c [t] user_id emoApi poApi hs]
  simp [cmd_format_body, ht, he, Event.isCallPoetry, Event.isHistoryWrite]

/-- Witness for C1: an emotion-service outage on a concrete message. -/
theorem generate_emotion_failure_aborts_witness :
    (cmd_format "/generate hi" 7 (fun _ => none) (fun _ => some "poem")).1 =
      .emotionUnavailable ∧
    ((cmd_format "/generate hi" 7 (fun _ => none)
        (fun _ => some "poem")).2.countP Event.isCallPoetry) = 0 ∧
    ((cmd_format "/generate hi" 7 (fun _ => none)
        (fun _ => some "poem")).2.countP Event.isHistoryWrite) = 0 :=
  generate_emotion_failure_aborts "/generate hi" "/generate" "hi" 7 _ _
    (by decide) (by decide) rfl

/-- C2: when both services succeed during `/generate`, exactly one
`EmotionRecord` write and exactly one `GenerationRecord` write occur, and
the `EmotionRecord` write precedes the `GenerationRecord` write in the
event trace. -/
theorem generate_success_logs_both (msgText c t : String) (user_id : Nat)
    (emoApi : String → Option Emotions) (poApi : Emotions → Option String)
    (emotions : Emotions) (poem : String)
    (hs : pySplit1 msgText = [c, t]) (ht : t ≠ "")
    (he : emoApi t = some emotions) (hp : poApi emotions = some poem) :
    ((cmd_format msgText user_id emoApi poApi).2.countP Event.isLogEmotion) = 1 ∧
    ((cmd_format msgText user_id emoApi poApi).2.countP Event.isLogGeneration) = 1 ∧
    ∃ l1 l2 l3, (cmd_format msgText user_id emoApi poApi).2 =
      l1 ++ Event.logEmotion user_id emotions ::
        (l2 ++ Event.logGeneration user_id t poem :: l3) := by
  rw [cmd_format_eq_body msgText c [t] user_id emoApi poApi hs]
  refine ⟨?_, ?_, [.callEmotion user_id t], [.callPoetry user_id emotions], [], ?_⟩ <;>
    simp [cmd_format_body, ht, he, hp, Event.isLogEmotion, Event.isLogGeneration]

/-- Witness for C2 on the spec's own scenario. -/
theorem generate_success_logs_both_witness :
    ((cmd_format "/generate hi" 7 (fun _ => some [("happy", 9), ("sad", 1)])
        (fun _ => some "la")).2.countP Event.isLogEmotion) = 1 ∧
    ((cmd_format "/generate hi" 7 (fun _ => some [("happy", 9), ("sad", 1)])
        (fun _ => some "la")).2.countP Event.isLogGeneration) = 1 ∧
    ∃ l1 l2 l3, (cmd_format "/generate hi" 7
        (fun _ => some [("happy", 9), ("sad", 1)]) (fun _ => some "la")).2 =
      l1 ++ Event.logEmotion 7 [("happy", 9), ("sad", 1)] ::
        (l2 ++ Event.logGeneration 7 "hi" "la" :: l3) :=
  generate_success_logs_both "/generate hi" "/generate" "hi" 7 _ _
    [("happy", 9), ("sad", 1)] "la" (by decide) (by decide) rfl rfl

/-- C3: when the emotion step succeeds but the poetry service fails, the
reply is the poetry-service-unavailable notice, no `GenerationRecord` is
written, and the single `EmotionRecord` written earlier stays in the
trace. -/
theorem generate_poetry_failure_keeps_emotion (msgText c t : String)
    (user_id : Nat) (emoApi : String → Option Emotions)
    (poApi : Emotions → Option String) (emotions : Emotions)
    (hs : pySplit1 msgText = [c, t]) (ht : t ≠ "")
    (he : emoApi t = some emotions) (hp : poApi emotions = none) :
    (cmd_format msgText user_id emoApi poApi).1 = .poetryUnavailable ∧
    ((cmd_format msgText user_id emoApi poApi).2.countP Event.isLogGeneration) = 0 ∧
    ((cmd_format msgText user_id emoApi poApi).2.countP Event.isLogEmotion) = 1 ∧
    Event.logEmotion user_id emotions ∈ (cmd_format msgText user_id emoApi poApi).2 := by
  rw [cmd_format_eq_body msgText c [t] user_id emoApi poApi hs]
  simp [cmd_format_body, ht, he, hp, Event.isLogEmotion, Event.isLogGeneration]

/-- Witness for C3: a poetry-service outage on a concrete message. -/
theorem generate_poetry_failure_keeps_emotion_witness :
    (cmd_format "/generate hi" 7 (fun _ => some [("joy", 1)]) (fun _ => none)).1 =
      .poetryUnavailable ∧
    ((cmd_format "/generate hi" 7 (fun _ => some [("joy", 1)])
        (fun _ => none)).2.countP Event.isLogGeneration) = 0 ∧
    ((cmd_format "/generate hi" 7 (fun _ => some [("joy", 1)])
        (fun _ => none)).2.countP Event.isLogEmotion) = 1 ∧
    Event.logEmotion 7 [("joy", 1)] ∈
      (cmd_format "/generate hi" 7 (fun _ => some [("joy", 1)]) (fun _ => none)).2 :=
  generate_poetry_failure_keeps_emotion "/generate hi" "/generate" "hi" 7 _ _
    [("joy", 1)] (by decide) (by decide) rfl rfl

/-- C8: in `/emotions`, a successful service response yields exactly one
history write (the `EmotionRecord`); a failed response yields zero history
writes; a message with no text argument yields no event at all. -/
theorem emotions_history_write_count (msgText c : String) (user_id : Nat)
    (emoApi : String → Option Emotions) :
    (∀ t r, pySplit1 msgText = [c, t] → t ≠ "" → emoApi t = some r →
      ((cmd_emotions msgText user_id emoApi).2.countP Event.isHistoryWrite) = 1 ∧
      ((cmd_emotions msgText user_id emoApi).2.countP Event.isLogEmotion) = 1) ∧
    (∀ t, pySplit1 msgText = [c, t] → t ≠ "" → emoApi t = none →
      ((cmd_emotions msgText user_id emoApi).2.countP Event.isHistoryWrite) = 0) ∧
    (pySplit1 msgText = [c] →
      (cmd_emotions msgText user_id emoApi).2 = []) := by
  refine ⟨?_, ?_, ?_⟩
  · intro t r hs ht he
    rw [cmd_emotions_eq_body msgText c [t] user_id emoApi hs]
    simp [cmd_emotions_body, ht, he, Event.isHistoryWrite, Event.isLogEmotion]
  · intro t hs ht he
    rw [cmd_emotions_eq_body msgText c [t] user_id emoApi hs]
    simp [cmd_emotions_body, ht, he, Event.isHistoryWrite]
  · intro hs
    rw [cmd_emotions_eq_body msgText c [] user_id emoApi hs]
    simp [cmd_emotions_body]

/-- Witness for C8 on concrete messages covering all three cases. -/
theorem emotions_history_write_count_witness :
    ((cmd_emotions "/emotions hi" 7
        (fun _ => some [("joy", 1)])).2.countP Event.isHistoryWrite) = 1 ∧
    ((cmd_emotions "/emotions hi" 7 (fun _ => none)).2.countP Event.isHistoryWrite) = 0 ∧
    (cmd_emotions "/emotions" 7 (fun _ => some [("joy", 1)])).2 = [] :=
  ⟨((emotions_history_write_count "/emotions hi" "/emotions" 7
      (fun _ => some [("joy", 1)])).1 "hi" [("joy", 1)] (by decide) (by decide) rfl).1,
   (emotions_history_write_count "/emotions hi" "/emotions" 7
      (fun _ => none)).2.1 "hi" (by decide) (by decide) rfl,
   (emotions_history_write_count "/emotions" "/emotions" 7
      (fun _ => some [("joy", 1)])).2.2 (by decide)⟩

/-- Python's `max` over a nonempty association list: the result is an entry
of the list, every score is bounded by its score, and every entry strictly
before it scores strictly less (so ties go to the first entry in iteration
order). -/
theorem pyMaxBy_cons_spec :
    ∀ (xs : List (String × ℚ)) (x : String × ℚ),
      ∃ p, pyMaxBy (x :: xs) = some p ∧
        ∃ l1 l2, x :: xs = l1 ++ p :: l2 ∧
          (∀ q ∈ l1, q.2 < p.2) ∧ ∀ q ∈ x :: xs, q.2 ≤ p.2 := by
  intro xs
  induction xs with
  | nil =>
    intro x
    exact ⟨x, rfl, [], [], rfl, by simp, by simp⟩
  | cons y ys ih =>
    intro x
    have hstep : pyMaxBy (x :: y :: ys) =
        pyMaxBy ((if x.2 < y.2 then y else x) :: ys) := rfl
    by_cases hxy : x.2 < y.2
    · obtain ⟨p, hp, l1, l2, hdec, hlt, hle⟩ := ih y
      have hyp : y.2 ≤ p.2 := hle y (List.mem_cons_self y ys)
      refine ⟨p, ?_, x :: l1, l2, ?_, ?_, ?_⟩
      · rw [hstep, if_pos hxy]; exact hp
      · rw [List.cons_append, ← hdec]
      · intro q hq
        rcases List.mem_cons.mp hq with rfl | hq'
        · exact lt_of_lt_of_le hxy hyp
        · exact hlt q hq'
      · intro q hq
        rcases List.mem_cons.mp hq with rfl | hq'
        · exact le_of_lt (lt_of_lt_of_le hxy hyp)
        · exact hle q hq'
    · obtain ⟨p, hp, l1, l2, hdec, hlt, hle⟩ := ih x
      have hyx : y.2 ≤ x.2 := le_of_not_lt hxy
      cases l1 with
      | nil =>
        simp only [List.nil_append] at hdec
        injection hdec with h1 h2
        subst h1
        subst h2
        refine ⟨x, ?_, [], y :: ys, rfl, by simp, ?_⟩
        · rw [hstep, if_neg hxy]; exact hp
        · intro q hq
          rcases List.mem_cons.mp hq with rfl | hq'
          · exact le_refl _
          · rcases List.mem_cons.mp hq' with rfl | hq''
            · exact hyx
            · exact hle q (List.mem_cons_of_mem x hq'')
      | cons a l1' =>
        rw [List.cons_append] at hdec
        injection hdec with h1 h2
        subst h1
        have hxp : x.2 < p.2 := hlt x (List.mem_cons_self x l1')
        refine ⟨p, ?_, x :: y :: l1', l2, ?_, ?_, ?_⟩
        · rw [hstep, if_neg hxy]; exact hp
        · simp [h2]
        · intro q hq
          rcases List.mem_cons.mp hq with rfl | hq'
          · exact hxp
          · rcases List.mem_cons.mp hq' with rfl | hq''
            · exact lt_of_le_of_lt hyx hxp
            · exact hlt q (List.mem_cons_of_mem x hq'')
        · intro q hq
          rcases List.mem_cons.mp hq with rfl | hq'
          · exact le_of_lt hxp
          · rcases List.mem_cons.mp hq' with rfl | hq''
            · exact le_trans hyx (le_of_lt hxp)
            · exact hle q (List.mem_cons_of_mem x hq'')

/-- C9: on every nonempty emotions mapping, the history formatting's
`max(..., key=score)` returns an entry with maximal score, and among equal
scores the entry encountered first in the mapping's iteration order. -/
theorem history_top_emotion_first_max (l : List (String × ℚ)) (hl : l ≠ []) :
    ∃ p, pyMaxBy l = some p ∧
      ∃ l1 l2, l = l1 ++ p :: l2 ∧
        (∀ q ∈ l1, q.2 < p.2) ∧ ∀ q ∈ l, q.2 ≤ p.2 := by
  cases l with
  | nil => exact absurd rfl hl
  | cons x xs => exact pyMaxBy_cons_spec xs x

/-- Witness for C9 on a mapping with a tied maximal score. -/
theorem history_top_emotion_first_max_witness :
    (([("a", 1), ("b", 2), ("c", 2)] : List (String × ℚ)) ≠ []) ∧
    ∃ p, pyMaxBy [("a", 1), ("b", 2), ("c", 2)] = some p ∧
      ∃ l1 l2, ([("a", 1), ("b", 2), ("c", 2)] : List (String × ℚ)) = l1 ++ p :: l2 ∧
        (∀ q ∈ l1, q.2 < p.2) ∧
        ∀ q ∈ ([("a", 1), ("b", 2), ("c", 2)] : List (String × ℚ)), q.2 ≤ p.2 :=
  ⟨List.cons_ne_nil _ _,
   history_top_emotion_first_max [("a", 1), ("b", 2), ("c", 2)] (List.cons_ne_nil _ _)⟩

/-- The per-record top-emotion loop fails as soon as some retrieved record
has an empty emotions mapping. -/
theorem topEmotions_eq_none (l : List EmotionRecord)
    (hr : ∃ rec ∈ l, rec.emotions = []) : topEmotions l = none := by
  induction l with
  | nil => obtain ⟨rec, hmem, _⟩ := hr; exact absurd hmem (List.not_mem_nil rec)
  | cons r rs ih =>
    obtain ⟨rec, hmem, hrec⟩ := hr
    rcases List.mem_cons.mp hmem with rfl | hmem'
    · show (match pyMaxBy rec.emotions with
        | none => none
        | some p =>
          match topEmotions rs with
          | none => none
          | some ps => some (p :: ps)) = none
      rw [hrec]
      rfl
    · show (match pyMaxBy r.emotions with
        | none => none
        | some p =>
          match topEmotions rs with
          | none => none
          | some ps => some (p :: ps)) = none
      rw [ih ⟨rec, hmem', hrec⟩]
      cases pyMaxBy r.emotions <;> rfl

/-- C10: if any retrieved `EmotionRecord` has an empty emotions mapping,
the history formatting yields the generic history-failure notice and never
the formatted listing: the `ValueError` from `max` is caught at the command
boundary. -/
theorem history_empty_mapping_error (h : History)
    (hr : ∃ rec ∈ h.emotions, rec.emotions = []) :
    renderHistory h = .historyError ∧
    ∀ tops gens, renderHistory h ≠ .historyListing tops gens := by
  obtain ⟨rec, hmem, hrec⟩ := hr
  have hne : h.emotions.isEmpty = false := by
    cases hh : h.emotions with
    | nil => rw [hh] at hmem; exact absurd hmem (List.not_mem_nil rec)
    | cons a t => rfl
  have hmain : renderHistory h = .historyError := by
    unfold renderHistory
    rw [topEmotions_eq_none h.emotions ⟨rec, hmem, hrec⟩, hne]
    rfl
  refine ⟨hmain, fun tops gens hcontra => ?_⟩
  rw [hmain] at hcontra
  cases hcontra

/-- Witness for C10: a history holding one record with an empty mapping. -/
theorem history_empty_mapping_error_witness :
    renderHistory ⟨[⟨[], "01.01.2025 00:00"⟩], []⟩ = .historyError ∧
    ∀ tops gens,
      renderHistory ⟨[⟨[], "01.01.2025 00:00"⟩], []⟩ ≠ .historyListing tops gens :=
  history_empty_mapping_error ⟨[⟨[], "01.01.2025 00:00"⟩], []⟩
    ⟨⟨[], "01.01.2025 00:00"⟩, List.mem_cons_self _ _, rfl⟩

/-- C6 counterexample: the argument `"0"` passes `isdigit`, so the limit
becomes `min(0, 20) = 0`, not the default `5`, and it lies outside the
claimed closed range `[5, 20]`. -/
theorem cmd_history_limit_zero_cex :
    parseLimit ["0"] = 0 ∧ parseLimit ["0"] ≠ 5 ∧ ¬ 5 ≤ parseLimit ["0"] ∧
    (cmd_history "/history 0" 7 (fun _ _ => ⟨[], []⟩)).2 = [.queryHistory 7 0] :=
  ⟨rfl, by decide, by decide, rfl⟩

/-- C6 (amended): a missing or non-digit first argument (non-numeric or
negative) yields the default limit 5; a digit-string argument is parsed and
clamped above to 20 but not below, so `"0"` gives 0, `"7"` gives 7,
`"100"` gives 20, and the limit always lies in `[0, 20]`. -/
theorem cmd_history_limit_contract :
    parseLimit [] = 5 ∧
    (∀ a rest, isDigitString a = false → parseLimit (a :: rest) = 5) ∧
    (∀ a rest, isDigitString a = true → parseLimit (a :: rest) = min (strToNat a) 20) ∧
    (∀ args, parseLimit args ≤ 20) ∧
    parseLimit ["0"] = 0 ∧ parseLimit ["7"] = 7 ∧ parseLimit ["100"] = 20 ∧
    parseLimit ["-3"] = 5 ∧ parseLimit ["abc"] = 5 := by
  refine ⟨rfl, ?_, ?_, ?_, rfl, rfl, rfl, rfl, rfl⟩
  · intro a rest h
    simp [parseLimit, h]
  · intro a rest h
    simp [parseLimit, h]
  · intro args
    cases args with
    | nil => decide
    | cons a rest =>
      simp only [parseLimit]
      split_ifs with h
      · exact min_le_right _ _
      · norm_num

/-- Witness for C6's amended contract at concrete arguments. -/
theorem cmd_history_limit_contract_witness :
    parseLimit ["x7"] = 5 ∧ parseLimit ["15"] = 15 :=
  ⟨cmd_history_limit_contract.2.1 "x7" [] (by decide),
   (cmd_history_limit_contract.2.2.1 "15" [] (by decide)).trans (by decide)⟩

/-- C4: a probe settles to a terminal status: never `checking`; a timeout
or a raised exception becomes the `error` status without propagating, and
a probe's outcome has no effect on its siblings' statuses. -/
theorem health_probe_failure_isolated :
    (∀ o : ProbeOutcome, check_service o ≠ .checking) ∧
    (∀ o : ProbeOutcome, (o = .timeout ∨ o = .exn) → check_service o = .error) ∧
    (∀ r r' : HealthRun, r.poetry = r'.poetry → r.database = r'.database →
      (healthStatuses r).2 = (healthStatuses r').2) := by
  refine ⟨?_, ?_, ?_⟩
  · intro o
    cases o with
    | ok b => cases b <;> decide
    | exn => decide
    | timeout => decide
  · rintro o (rfl | rfl) <;> rfl
  · intro r r' hp hd
    simp [healthStatuses, hp, hd]

/-- Witness for C4: a timed-out and a crashing probe, alongside healthy
siblings. -/
theorem health_probe_failure_isolated_witness :
    check_service .timeout = .error ∧
    check_service .exn ≠ .checking ∧
    (healthStatuses ⟨.timeout, .ok true, .ok true⟩).2 =
      (healthStatuses ⟨.exn, .ok true, .ok true⟩).2 :=
  ⟨health_probe_failure_isolated.2.1 .timeout (Or.inl rfl),
   health_probe_failure_isolated.1 .exn,
   health_probe_failure_isolated.2.2 ⟨.timeout, .ok true, .ok true⟩
     ⟨.exn, .ok true, .ok true⟩ rfl rfl⟩

/-- C5: the closing reaction is the aggregate-success one exactly when all
three services settled to `success`, and any `error` status forces the
aggregate-failure reaction. -/
theorem health_final_reaction_iff (r : HealthRun) :
    ((cmd_health r).2 = .thumbsUp ↔
      (healthStatuses r).1 = .success ∧ (healthStatuses r).2.1 = .success ∧
        (healthStatuses r).2.2 = .success) ∧
    (((healthStatuses r).1 = .error ∨ (healthStatuses r).2.1 = .error ∨
        (healthStatuses r).2.2 = .error) →
      (cmd_health r).2 = .thumbsDown) := by
  have hcmd : (cmd_health r).2 =
      if (healthStatuses r).1 = .success ∧ (healthStatuses r).2.1 = .success ∧
          (healthStatuses r).2.2 = .success then .thumbsUp else .thumbsDown := rfl
  constructor
  · rw [hcmd]
    split_ifs with hC
    · simp [hC]
    · simp [hC]
  · intro herr
    rw [hcmd]
    split_ifs with hC
    · exfalso
      obtain ⟨h1, h2, h3⟩ := hC
      rcases herr with h | h | h
      · rw [h] at h1; exact absurd h1 (by decide)
      · rw [h] at h2; exact absurd h2 (by decide)
      · rw [h] at h3; exact absurd h3 (by decide)
    · rfl

/-- Witness for C5: all-success and one-timeout runs. -/
theorem health_final_reaction_iff_witness :
    (cmd_health ⟨.ok true, .ok true, .ok true⟩).2 = .thumbsUp ∧
    (cmd_health ⟨.timeout, .ok true, .ok true⟩).2 = .thumbsDown :=
  ⟨(health_final_reaction_iff ⟨.ok true, .ok true, .ok true⟩).1.mpr (by decide),
   (health_final_reaction_iff ⟨.timeout, .ok true, .ok true⟩).2 (Or.inl rfl)⟩

end NeuroPoet
